import Mathlib

/-!
Verification development for the soundscouting project/location manager.

The definitions below are shallow embeddings of the TypeScript source:
  * the storage core (`src/lib/pdf.ts`, second document: `createProject`,
    `updateProjectName`, `createLocation`, `updateLocation`, `setSetStatus`,
    `setSetNotes`, `addSetPhoto`, `removeSetPhoto`, `setSetCoords`,
    `preparePhoto`),
  * the photo-batch handler and image normalizer of
    `src/app/project/[id]/page.tsx` (`handlePhotoSelection`,
    `convertFileToJpegDataUrl`, `handleUseMyLocation`),
  * the PDF layout engine (`addImageGrid`, `exportProjectPdf`).

JavaScript strings are modelled as lists of characters (`JStr`), numbers as
rationals, timestamps and fresh ids as explicit parameters (they come from
`new Date()` / `crypto.randomUUID()` in the source).
-/

namespace SoundScouting

/-- JavaScript string, modelled as its list of characters. -/
abbrev JStr := List Char

/-- Model of `String.prototype.trim`: drop whitespace from both ends. -/
def jsTrim (s : JStr) : JStr :=
  ((s.dropWhile Char.isWhitespace).reverse.dropWhile Char.isWhitespace).reverse

/-- Model of `String.prototype.toLowerCase` (ASCII-adequate). -/
def jsToLower (s : JStr) : JStr := s.map Char.toLower

/-- Model of `Math.round`: round half toward positive infinity. -/
def jsRound (q : ℚ) : ℤ := ⌊q + 1 / 2⌋

/-- Model of `x.toFixed(6)` followed by `parseFloat`: round to 6 decimal places,
half away from zero. -/
def jsToFixed6 (q : ℚ) : ℚ :=
  if 0 ≤ q then (⌊q * 1000000 + 1 / 2⌋ : ℚ) / 1000000
  else -((⌊-q * 1000000 + 1 / 2⌋ : ℚ) / 1000000)

/-! ## Data model (`src/lib/pdf.ts`) -/

inductive LocationStatus where
  | pending
  | approved
  | rejected
deriving DecidableEq, Repr

structure LocationCoordinates where
  lat : ℚ
  lng : ℚ
deriving DecidableEq, Repr

structure LocationPhoto where
  id : String
  dataUrl : String
  createdAt : String
  fileName : Option String := none
deriving DecidableEq, Repr

structure LocationSet where
  id : String
  name : JStr
  notes : JStr
  status : LocationStatus
  photos : List LocationPhoto
  coords : Option LocationCoordinates
  createdAt : String
  updatedAt : String
deriving DecidableEq, Repr

structure Project where
  id : String
  name : JStr
  createdAt : String
  updatedAt : String
  locations : List LocationSet
deriving DecidableEq, Repr

deriving instance DecidableEq for Except

/-- Error taxonomy of the storage core (`throw new Error(...)` codes). -/
inductive StoreError where
  | emptyProjectName
  | duplicateProjectName
  | duplicateLocationName
  | notesTooLong
  | addSetPhotoFailed
deriving DecidableEq, Repr

/-! ## Name helpers (`normalize`, `projectNameExists`, `locationNameExists`) -/

/-- Embeds `normalize`: `value.trim().toLowerCase()`. -/
def normalizeName (value : JStr) : JStr := jsToLower (jsTrim value)

/-- Embeds `projectNameExists(name, excludeId?)` over an explicit store. -/
def projectNameExists (projects : List Project) (name : JStr)
    (excludeId : Option String) : Bool :=
  projects.any fun p =>
    decide (excludeId ≠ some p.id) && (normalizeName p.name == normalizeName name)

/-- Embeds `locationNameExists(project, name, excludeId?)`. -/
def locationNameExists (project : Project) (name : JStr)
    (excludeId : Option String) : Bool :=
  project.locations.any fun l =>
    decide (excludeId ≠ some l.id) && (normalizeName l.name == normalizeName name)

/-- Embeds `findProject(id)`. -/
def findProject (projects : List Project) (id : String) : Option Project :=
  projects.find? fun p => p.id = id

/-! ## Project-level operations

Each mutator takes the current store plus the values the source obtains
from the environment (`new Date().toISOString()`, `createId()`) and
returns the persisted store together with the source's return value
(or thrown error). A thrown error leaves the store untouched because the
source throws before calling `persist`. -/

/-- Embeds `createProject(name)`. -/
def createProject (projects : List Project) (name : JStr) (newId now : String) :
    List Project × Except StoreError Project :=
  let trimmed := jsTrim name
  if trimmed = [] then (projects, .error .emptyProjectName)
  else if projectNameExists projects trimmed none then
    (projects, .error .duplicateProjectName)
  else
    let project : Project :=
      { id := newId, name := trimmed, createdAt := now, updatedAt := now, locations := [] }
    (projects ++ [project], .ok project)

/-- Embeds `updateProjectName(id, name)`. -/
def updateProjectName (projects : List Project) (id : String) (name : JStr)
    (now : String) : List Project × Option Project :=
  let trimmed := jsTrim name
  if trimmed = [] then (projects, findProject projects id)
  else if projectNameExists projects trimmed (some id) then (projects, none)
  else
    let updated := projects.map fun p =>
      if p.id = id then { p with name := trimmed, updatedAt := now } else p
    (updated, findProject updated id)

/-- Embeds `createLocation(projectId, name)`; the `DUPLICATE_LOCATION_NAME` throw
happens inside the `map` callback, before `persist` runs. -/
def createLocation (projects : List Project) (projectId : String) (name : JStr)
    (newId now : String) : List Project × Except StoreError (Option Project) :=
  let trimmed := jsTrim name
  if trimmed = [] then (projects, .ok (findProject projects projectId))
  else if projects.any fun p => p.id == projectId && locationNameExists p trimmed none then
    (projects, .error .duplicateLocationName)
  else
    let newLocation : LocationSet :=
      { id := newId, name := trimmed, notes := [], status := .pending, photos := [],
        coords := none, createdAt := now, updatedAt := now }
    let updated := projects.map fun p =>
      if p.id = projectId then
        { p with updatedAt := now, locations := p.locations ++ [newLocation] }
      else p
    (updated, .ok (findProject updated projectId))

/-! ## `updateLocation` and the five location mutators built on it -/

/-- The body of `updateLocation` acting on one project's location list:
find the first location with the target id, apply the updater, and force
`id`/`createdAt` back to the current values while stamping `updatedAt`.
Returns `none` when the id is absent or the updater returns `null`. -/
def updateLocations (locationId : String) (updater : LocationSet → Option LocationSet)
    (now : String) : List LocationSet → Option (List LocationSet)
  | [] => none
  | l :: rest =>
    if l.id = locationId then
      match updater l with
      | none => none
      | some result =>
        some ({ result with id := l.id, createdAt := l.createdAt, updatedAt := now } :: rest)
    else
      (updateLocations locationId updater now rest).map fun rest' => l :: rest'

/-- The `map` callback of `updateLocation` for one stored project: returns
the (possibly updated) project plus the value assigned to `updatedProject`
in that iteration. -/
def updateProjectStep (projectId locationId : String)
    (updater : LocationSet → Option LocationSet) (now : String) (p : Project) :
    Project × Option Project :=
  if p.id = projectId then
    match updateLocations locationId updater now p.locations with
    | some ls =>
      ({ p with updatedAt := now, locations := ls },
       some { p with updatedAt := now, locations := ls })
    | none => (p, none)
  else (p, none)

/-- Embeds `updateLocation(projectId, locationId, updater)`: map over the store;
`persist` runs only when some project produced an update (`updatedProject`
holds the last one), otherwise the store is left as it was and `undefined`
is returned. -/
def updateLocation (projects : List Project) (projectId locationId : String)
    (updater : LocationSet → Option LocationSet) (now : String) :
    List Project × Option Project :=
  match (((projects.map (updateProjectStep projectId locationId updater now)).filterMap
      Prod.snd).getLast?) with
  | none => (projects, none)
  | some q =>
    ((projects.map (updateProjectStep projectId locationId updater now)).map Prod.fst, some q)

/-- Updater of `setSetStatus`. -/
def statusUpdater (status : LocationStatus) (l : LocationSet) : Option LocationSet :=
  if l.status = status then some l else some { l with status := status }

/-- Embeds `setSetStatus(projectId, locationId, status)`. -/
def setSetStatus (projects : List Project) (projectId locationId : String)
    (status : LocationStatus) (now : String) : List Project × Option Project :=
  updateLocation projects projectId locationId (statusUpdater status) now

/-- Updater of `setSetNotes` (receives the pre-trimmed text). -/
def notesUpdater (trimmed : JStr) (l : LocationSet) : Option LocationSet :=
  if l.notes = trimmed then some l else some { l with notes := trimmed }

/-- Embeds `setSetNotes(projectId, locationId, notes)`: the length check runs on the
trimmed text and throws before `updateLocation` is reached. -/
def setSetNotes (projects : List Project) (projectId locationId : String)
    (notes : JStr) (now : String) :
    List Project × Except StoreError (Option Project) :=
  let trimmed := jsTrim notes
  if 2000 < trimmed.length then (projects, .error .notesTooLong)
  else
    let r := updateLocation projects projectId locationId (notesUpdater trimmed) now
    (r.1, .ok r.2)

/-- Input record of `addSetPhoto` (`AddPhotoInput`). -/
structure AddPhotoInput where
  dataUrl : String
  createdAt : Option String := none
  fileName : Option String := none
deriving DecidableEq, Repr

/-- Updater of `addSetPhoto`: byte-identical `dataUrl` already stored means
duplicate (return the location unchanged), otherwise append a new photo. -/
def photoUpdater (input : AddPhotoInput) (newId fallbackNow : String)
    (l : LocationSet) : Option LocationSet :=
  if l.photos.any fun ph => ph.dataUrl == input.dataUrl then some l
  else
    some { l with photos := l.photos ++
      [{ id := newId, dataUrl := input.dataUrl,
         createdAt := input.createdAt.getD fallbackNow, fileName := input.fileName }] }

/-- Embeds `addSetPhoto(projectId, locationId, input)`; throws when the lookup fails. -/
def addSetPhoto (projects : List Project) (projectId locationId : String)
    (input : AddPhotoInput) (newId now : String) :
    List Project × Except StoreError Project :=
  let r := updateLocation projects projectId locationId (photoUpdater input newId now) now
  match r.2 with
  | none => (projects, .error .addSetPhotoFailed)
  | some q => (r.1, .ok q)

/-- Updater of `removeSetPhoto`: `null` when nothing matched the identifier. -/
def removePhotoUpdater (identifier : String) (l : LocationSet) : Option LocationSet :=
  let filtered := l.photos.filter fun ph => ph.id ≠ identifier ∧ ph.dataUrl ≠ identifier
  if filtered.length = l.photos.length then none
  else some { l with photos := filtered }

/-- Embeds `removeSetPhoto(projectId, locationId, identifier)`. -/
def removeSetPhoto (projects : List Project) (projectId locationId identifier : String)
    (now : String) : List Project × Option Project :=
  updateLocation projects projectId locationId (removePhotoUpdater identifier) now

/-- Updater of `setSetCoords`: keep the record when both pairs exist and agree
componentwise, otherwise overwrite with the given value. -/
def coordsUpdater (coords : Option LocationCoordinates) (l : LocationSet) :
    Option LocationSet :=
  match l.coords, coords with
  | some a, some b =>
    if a.lat = b.lat ∧ a.lng = b.lng then some l
    else some { l with coords := coords }
  | _, _ => some { l with coords := coords }

/-- Embeds `setSetCoords(projectId, locationId, coords)`: stores the pair verbatim. -/
def setSetCoords (projects : List Project) (projectId locationId : String)
    (coords : Option LocationCoordinates) (now : String) :
    List Project × Option Project :=
  updateLocation projects projectId locationId (coordsUpdater coords) now

/-- Embeds the `handleUseMyLocation` success callback (`src/app/project/[id]/page.tsx`):
rounds each geolocation coordinate with `toFixed(6)` before storing. -/
def handleUseMyLocation (projects : List Project) (projectId locationId : String)
    (lat lng : ℚ) (now : String) : List Project × Option Project :=
  setSetCoords projects projectId locationId
    (some { lat := jsToFixed6 lat, lng := jsToFixed6 lng }) now

/-! ## Media normalizer: target-dimension computation

`convertFileToJpegDataUrl` (`src/app/project/[id]/page.tsx`,
`MAX_IMAGE_DIMENSION = 1600`) and `preparePhoto` (`src/lib/pdf.ts`,
`MAX_SIZE = 2560`) compute the resize target from the decoded source
dimensions. -/

/-- Embeds `Math.min(1, LIMIT / Math.max(width, height))`: the downscale factor
shared by both normalizer variants. -/
def resizeScale (M : ℚ) (width height : ℕ) : ℚ :=
  min 1 (M / max (width : ℚ) (height : ℚ))

/-- Target dimensions of `convertFileToJpegDataUrl`:
`Math.max(1, Math.round(side * scale))` with the 1600 limit. -/
def convertTargetDims (width height : ℕ) : ℕ × ℕ :=
  (max 1 (jsRound (width * resizeScale 1600 width height)).toNat,
   max 1 (jsRound (height * resizeScale 1600 width height)).toNat)

/-- Target dimensions of `preparePhoto`:
`Math.round(side * scale) || side` with the 2560 limit (a zero-rounded
side falls back to the source side). -/
def prepareTargetDims (width height : ℕ) : ℕ × ℕ :=
  ((if (jsRound (width * resizeScale 2560 width height)).toNat = 0 then width
    else (jsRound (width * resizeScale 2560 width height)).toNat),
   (if (jsRound (height * resizeScale 2560 width height)).toNat = 0 then height
    else (jsRound (height * resizeScale 2560 width height)).toNat))

/-- The spec's reading of "aspect ratio preserved within rounding" for a
limit `M`: each target side differs from the exactly scaled side by at
most one half. -/
def aspectWithinRounding (M : ℚ) (width height tw th : ℕ) : Prop :=
  |(tw : ℚ) - width * resizeScale M width height| ≤ 1 / 2 ∧
  |(th : ℚ) - height * resizeScale M width height| ≤ 1 / 2

/-! ## Photo batch handler (`handlePhotoSelection`,
`src/app/project/[id]/page.tsx` lines 465-589)

The handler precomputes the remaining slots, stops the loop once they are
exhausted, and for each file normalizes it (`preparePhoto`), skips exact
payload duplicates, and appends a photo. It is modelled at the level of
one location's photo list; `addSetPhoto` never hits its own duplicate
branch here because the handler checks the same predicate first. -/

def MAX_PHOTOS : ℕ := 10

/-- One selected file: `payload = none` models a `preparePhoto` failure,
otherwise the encoded data URL the normalizer produced for it. -/
structure BatchFile where
  payload : Option String
  name : String
deriving DecidableEq, Repr

/-- Per-batch outcome counters plus the resulting photo list. -/
structure BatchResult where
  photos : List LocationPhoto
  addedCount : ℕ
  duplicateCount : ℕ
  failedCount : ℕ
  limitReached : Bool
  capacityUpfront : Bool
deriving DecidableEq, Repr

/-- The file loop of `handlePhotoSelection`. `remaining` is
`remainingSlots` (an integer: the location may already exceed the cap). -/
def processFiles (photos : List LocationPhoto) (remaining : ℤ)
    (added duplicate failed : ℕ) (now : String) :
    List BatchFile → BatchResult
  | [] =>
    { photos := photos, addedCount := added, duplicateCount := duplicate,
      failedCount := failed, limitReached := false, capacityUpfront := false }
  | f :: rest =>
    if remaining ≤ 0 then
      { photos := photos, addedCount := added, duplicateCount := duplicate,
        failedCount := failed, limitReached := true, capacityUpfront := false }
    else
      match f.payload with
      | none => processFiles photos remaining added duplicate (failed + 1) now rest
      | some dataUrl =>
        if photos.any fun ph => ph.dataUrl == dataUrl then
          processFiles photos remaining added (duplicate + 1) failed now rest
        else
          let photo : LocationPhoto :=
            { id := f.name, dataUrl := dataUrl, createdAt := now, fileName := some f.name }
          processFiles (photos ++ [photo]) (remaining - 1) (added + 1) duplicate failed now rest

/-- Embeds `handlePhotoSelection` for one location: empty selections return
immediately; a full (or over-full) location is rejected upfront with the
capacity toast; otherwise the files are processed sequentially. -/
def handlePhotoSelection (photos : List LocationPhoto) (files : List BatchFile)
    (now : String) : BatchResult :=
  if files = [] then
    { photos := photos, addedCount := 0, duplicateCount := 0, failedCount := 0,
      limitReached := false, capacityUpfront := false }
  else
    let remaining : ℤ := (MAX_PHOTOS : ℤ) - photos.length
    if remaining ≤ 0 then
      { photos := photos, addedCount := 0, duplicateCount := 0, failedCount := 0,
        limitReached := false, capacityUpfront := true }
    else processFiles photos remaining 0 0 0 now files

/-! ## Document layout engine (`src/unnamed/part_006`)

jsPDF A4 portrait in points: 595.28 x 841.89. `exportProjectPdf` and
`exportLocationPdf` use `marginTop = marginBottom = 76` and
`contentWidth = pageWidth - 2 * 76`. -/

def pageWidthA4 : ℚ := 59528 / 100
def pageHeightA4 : ℚ := 84189 / 100

/-- Per-cell geometry of `addImageGrid`: fit the image into the cell width,
cap the height at `maxImageHeight` shrinking the width to keep the aspect
ratio, and re-clamp to the cell width; a caption adds 6 + 14 points. The
result is the cell's `requiredHeight`. -/
def cellRequiredHeight (baseCellWidth maxImageHeight : ℚ) (w h : ℚ)
    (hasCaption : Bool) : ℚ :=
  let aspectRatio : ℚ := if w ≠ 0 ∧ h ≠ 0 then w / h else 1
  let ih0 := baseCellWidth / aspectRatio
  let imageHeight :=
    if maxImageHeight < ih0 then
      if baseCellWidth < maxImageHeight * aspectRatio then baseCellWidth / aspectRatio
      else maxImageHeight
    else ih0
  imageHeight + (if hasCaption then 6 + 14 else 0)

/-- Where one grid cell was drawn: page (0 = the page the grid started on),
column index, vertical cursor at placement, and its required height. -/
structure CellPlacement where
  page : ℕ
  column : ℕ
  y : ℚ
  height : ℚ
deriving DecidableEq, Repr

/-- The placement loop of `addImageGrid` over the per-cell required
heights. Overflow is checked per cell: a cell that would cross the bottom
margin triggers `addPage` and restarts at the top margin in column 0. A
row ends when the column count is reached or the input ends. -/
def gridLoop (pageHeight marginTop marginBottom gap : ℚ) (columns : ℕ) :
    List ℚ → ℕ → ℚ → ℕ → ℚ → List CellPlacement
  | [], _, _, _, _ => []
  | req :: rest, page, cursorY, columnIndex, rowHeight =>
    if pageHeight - marginBottom < cursorY + req then
      -- page break before this cell: restart at the top margin in column 0
      let placement : CellPlacement :=
        { page := page + 1, column := 0, y := marginTop, height := req }
      if 1 = columns ∨ rest = [] then
        placement :: gridLoop pageHeight marginTop marginBottom gap columns rest
          (page + 1) (marginTop + max 0 req + gap) 0 0
      else
        placement :: gridLoop pageHeight marginTop marginBottom gap columns rest
          (page + 1) marginTop 1 (max 0 req)
    else
      let placement : CellPlacement :=
        { page := page, column := columnIndex, y := cursorY, height := req }
      if columnIndex + 1 = columns ∨ rest = [] then
        placement :: gridLoop pageHeight marginTop marginBottom gap columns rest
          page (cursorY + max rowHeight req + gap) 0 0
      else
        placement :: gridLoop pageHeight marginTop marginBottom gap columns rest
          page cursorY (columnIndex + 1) (max rowHeight req)

/-- Embeds `addImageGrid` reduced to its placement geometry. `dims` are the
decoded image dimensions, `caps` says which cells carry a non-blank
caption (`captions[index] ?? ''` is blank past the end). -/
def addImageGridPlacements (pageHeight startY marginTop marginBottom maxWidth gap : ℚ)
    (columns : ℕ) (maxImageHeight : ℚ) (dims : List (ℚ × ℚ)) (caps : List Bool) :
    List CellPlacement :=
  let availableWidth := maxWidth - gap * ((columns : ℚ) - 1)
  let baseCellWidth := availableWidth / columns
  let reqs := dims.enum.map fun iwh =>
    cellRequiredHeight baseCellWidth maxImageHeight iwh.2.1 iwh.2.2 (caps.getD iwh.1 false)
  gridLoop pageHeight marginTop marginBottom gap columns reqs 0 startY 0 0

/-- Default column count of `addImageGrid`: 3 when at least 420 points of
width are available, else 2. -/
def resolveColumns (maxWidth : ℚ) : ℕ := if 420 ≤ maxWidth then 3 else 2

/-! ### Two-pass project report (`exportProjectPdf`) -/

/-- Embeds `linesPerPage`: estimated index entries per index page,
`max(1, floor((pageHeight - 76 - 76 - 56) / 18))`. -/
def linesPerPage : ℕ := max 1 (⌊(pageHeightA4 - 76 - 76 - 56) / 18⌋).toNat

/-- Embeds `indexPageCount`: pre-allocated index pages for `n` locations. -/
def indexPageCount (n : ℕ) : ℕ := max 1 (⌈(n : ℚ) / (linesPerPage : ℚ)⌉).toNat

/-- Pass 1 over the locations: `doc.addPage()` then record
`doc.getNumberOfPages()` as the location's index reference, then render the
detail section, which adds `extra` further pages when its content
overflows. For each location the pair holds (recorded page, page the
detail title is actually drawn on). `pages` is the current page count. -/
def pass1Records (pages : ℕ) : List ℕ → List (ℕ × ℕ)
  | [] => []
  | extra :: rest =>
    let pageNumber := pages + 1
    (pageNumber, pageNumber) :: pass1Records (pageNumber + extra) rest

/-- Vertical advance of one index entry: at least one `lineHeight` (18),
or the summary's wrapped lines at 12 points each plus half a line. -/
def entryAdvance (summaryLines : ℕ) : ℚ :=
  max 18 ((summaryLines : ℚ) * 12 + 18 / 2)

/-- The `while` loop of pass 2 on one index page: starting at
`cursorY = 76 + 56`, keep writing entries while
`cursorY <= (pageHeight - 76) - 18`; returns how many entries fit. -/
def fillPage (cursorY : ℚ) : List ℕ → ℕ
  | [] => 0
  | summaryLines :: rest =>
    if cursorY ≤ (pageHeightA4 - 76) - 18 then
      1 + fillPage (cursorY + entryAdvance summaryLines) rest
    else 0

/-- Pass 2 over the pre-allocated index pages: each page consumes as many
remaining entries as its `while` loop accepts; entries left over when the
pre-allocated pages are exhausted are never written. -/
def placedEntries : ℕ → List ℕ → ℕ
  | 0, _ => 0
  | pagesLeft + 1, counts =>
    let k := fillPage (76 + 56) counts
    k + placedEntries pagesLeft (counts.drop k)

/-- Page references of the index entries actually written, in location
order: the recorded pass-1 page numbers, truncated to the entries that fit
on the pre-allocated index pages. `extras` are the per-location overflow
page counts, `counts` the per-location summary line counts. -/
def indexEntryPages (extras counts : List ℕ) : List ℕ :=
  ((pass1Records (1 + indexPageCount extras.length) extras).map Prod.fst).take
    (placedEntries (indexPageCount extras.length) counts)

/-! ## Derived notions used by the statements -/

/-- Number of stored photos of a location carrying a given payload. -/
def payloadCount (photos : List LocationPhoto) (dataUrl : String) : ℕ :=
  (photos.filter fun ph => ph.dataUrl == dataUrl).length

/-- The frame condition a successful `updateLocation` establishes between a
source project `p` and the updated project `q`: project identity fields are
kept, `updatedAt` is stamped, and the location list changes only at the
first location whose id matches, which keeps its `id`/`createdAt` and gets
the same `updatedAt` stamp. -/
def updatePreservesFrame (locationId now : String) (p q : Project) : Prop :=
  q.id = p.id ∧ q.name = p.name ∧ q.createdAt = p.createdAt ∧ q.updatedAt = now ∧
  ∃ pre l nl post,
    p.locations = pre ++ l :: post ∧
    q.locations = pre ++ nl :: post ∧
    (∀ x ∈ pre, x.id ≠ locationId) ∧
    l.id = locationId ∧ nl.id = l.id ∧ nl.createdAt = l.createdAt ∧ nl.updatedAt = now

/-! ## Concrete fixtures for witnesses and counterexamples -/

def demoLocation : LocationSet :=
  { id := "loc1", name := ['W'], notes := [], status := .pending, photos := [],
    coords := none, createdAt := "t0", updatedAt := "t0" }

def demoProject : Project :=
  { id := "proj1", name := ['A'], createdAt := "t0", updatedAt := "t0",
    locations := [demoLocation] }

/-- A stored project whose persisted name is empty: such records survive the
storage repair (`normalizeProject` keeps any string name). -/
def emptyNamedProject : Project :=
  { id := "p0", name := [], createdAt := "t0", updatedAt := "t0", locations := [] }

/-- Photo list of a location already holding nine distinct photos. -/
def ninePhotoLocationPhotos : List LocationPhoto :=
  ["p1", "p2", "p3", "p4", "p5", "p6", "p7", "p8", "p9"].map fun s =>
    { id := s, dataUrl := s, createdAt := "t0" }

/-- Photo list of a location at the 10-photo cap. -/
def tenPhotoLocationPhotos : List LocationPhoto :=
  ninePhotoLocationPhotos ++ [{ id := "p10", dataUrl := "p10", createdAt := "t0" }]

/-- A selected file whose normalized payload is `"d"`. -/
def dupBatchFile : BatchFile := { payload := some "d", name := "dup.jpg" }

/-! # Theorems

## String helpers -/

theorem jsTrim_def (s : JStr) :
    jsTrim s = List.rdropWhile Char.isWhitespace (s.dropWhile Char.isWhitespace) := rfl

theorem dropWhile_jsTrim (s : JStr) :
    (jsTrim s).dropWhile Char.isWhitespace = jsTrim s := by
  rw [jsTrim_def]
  rcases hrd : List.rdropWhile Char.isWhitespace (s.dropWhile Char.isWhitespace) with _ | ⟨a, t⟩
  · rfl
  · have hpre := List.rdropWhile_prefix Char.isWhitespace (s.dropWhile Char.isWhitespace)
    rw [hrd] at hpre
    obtain ⟨t2, ht2⟩ := hpre
    have h3 : s.dropWhile Char.isWhitespace = a :: (t ++ t2) := by
      rw [← ht2]; simp
    have h5 := List.head_dropWhile_not Char.isWhitespace s
      (by rw [h3]; exact List.cons_ne_nil _ _)
    simp only [h3, List.head_cons] at h5
    simp [List.dropWhile_cons, h5]

theorem jsTrim_idem (s : JStr) : jsTrim (jsTrim s) = jsTrim s := by
  rw [jsTrim_def (jsTrim s), dropWhile_jsTrim, jsTrim_def, List.rdropWhile_idempotent]

theorem jsTrim_length_le (s : JStr) : (jsTrim s).length ≤ s.length := by
  unfold jsTrim
  simp only [List.length_reverse]
  calc ((s.dropWhile Char.isWhitespace).reverse.dropWhile Char.isWhitespace).length
      ≤ (s.dropWhile Char.isWhitespace).reverse.length :=
        (List.dropWhile_sublist _).length_le
    _ = (s.dropWhile Char.isWhitespace).length := List.length_reverse _
    _ ≤ s.length := (List.dropWhile_sublist _).length_le

theorem normalizeName_jsTrim (s : JStr) : normalizeName (jsTrim s) = normalizeName s := by
  unfold normalizeName
  rw [jsTrim_idem]

theorem dropWhile_ws_replicate_a (n : ℕ) :
    List.dropWhile Char.isWhitespace (List.replicate n 'a') = List.replicate n 'a' := by
  cases n with
  | zero => rfl
  | succ m =>
    rw [List.replicate_succ, List.dropWhile_cons, if_neg (by decide)]

theorem jsTrim_replicate_a (n : ℕ) :
    jsTrim (List.replicate n 'a') = List.replicate n 'a' := by
  unfold jsTrim
  rw [dropWhile_ws_replicate_a, List.reverse_replicate, dropWhile_ws_replicate_a,
    List.reverse_replicate]

theorem jsTrim_space_replicate_a (n : ℕ) :
    jsTrim (' ' :: List.replicate n 'a') = List.replicate n 'a' := by
  unfold jsTrim
  rw [List.dropWhile_cons, if_pos (by decide), dropWhile_ws_replicate_a,
    List.reverse_replicate, dropWhile_ws_replicate_a, List.reverse_replicate]

theorem projectNameExists_none_iff (projects : List Project) (name : JStr) :
    projectNameExists projects name none = true ↔
      ∃ p ∈ projects, normalizeName p.name = normalizeName name := by
  unfold projectNameExists
  simp [List.any_eq_true]

/-! ## C10 -/

/-- C10: `updateProjectName` and `createLocation` treat an empty or
whitespace-only name as a silent no-op, returning the current record with
the store untouched, while `createProject` raises `EMPTY_PROJECT_NAME`. -/
theorem emptyName_silent_noop (projects : List Project) (id : String) (name : JStr)
    (newId now : String) (h : jsTrim name = []) :
    updateProjectName projects id name now = (projects, findProject projects id) ∧
    createLocation projects id name newId now = (projects, .ok (findProject projects id)) ∧
    createProject projects name newId now = (projects, .error .emptyProjectName) := by
  refine ⟨?_, ?_, ?_⟩ <;> simp [updateProjectName, createLocation, createProject, h]

/-- Witness for C10 at the whitespace-only name `" "` on the empty store. -/
theorem emptyName_silent_noop_witness :
    updateProjectName [] "p1" [' '] "t1" = ([], none) ∧
    createLocation [] "p1" [' '] "n1" "t1" = ([], .ok none) ∧
    createProject [] [' '] "n1" "t1" = ([], .error .emptyProjectName) :=
  emptyName_silent_noop [] "p1" [' '] "n1" "t1" (by decide)

/-! ## C5 -/

/-- C5 counterexample: a notes string of 2001 characters whose first
character is a space is accepted by `setSetNotes` (no `NOTES_TOO_LONG`),
because the length check runs on the trimmed text. -/
theorem notes2001Accepted_counterexample :
    ((' ' :: List.replicate 2000 'a') : JStr).length = 2001 ∧
    (setSetNotes [demoProject] "proj1" "loc1" (' ' :: List.replicate 2000 'a') "t1").2 ≠
      Except.error StoreError.notesTooLong := by
  constructor
  · rw [List.length_cons, List.length_replicate]
  · simp only [setSetNotes, jsTrim_space_replicate_a, List.length_replicate]
    norm_num
    exact fun hc => Except.noConfusion hc

/-- C5 amended: `setSetNotes` decides on the trimmed text: any notes string
whose trimmed length is at most 2000 — in particular every string of
exactly 2000 characters — is accepted, while a trimmed length above 2000
is rejected with `NotesTooLong` and the whole store (hence the stored
notes) is returned unchanged. -/
theorem setSetNotes_trimmed_boundary (projects : List Project) (pid lid : String)
    (notes : JStr) (now : String) :
    ((jsTrim notes).length ≤ 2000 →
      (setSetNotes projects pid lid notes now).2 ≠ Except.error StoreError.notesTooLong) ∧
    (notes.length = 2000 →
      (setSetNotes projects pid lid notes now).2 ≠ Except.error StoreError.notesTooLong) ∧
    (2000 < (jsTrim notes).length →
      setSetNotes projects pid lid notes now = (projects, .error .notesTooLong)) := by
  refine ⟨?_, ?_, ?_⟩
  · intro h
    simp [setSetNotes, Nat.not_lt.mpr h]
  · intro h
    have hle : (jsTrim notes).length ≤ 2000 := h ▸ jsTrim_length_le notes
    simp [setSetNotes, Nat.not_lt.mpr hle]
  · intro h
    simp [setSetNotes, h]

/-- Witness for C5 at a 2000-character accepted input and a 2001-character
rejected input. -/
theorem setSetNotes_trimmed_boundary_witness :
    ((setSetNotes [demoProject] "proj1" "loc1" (List.replicate 2000 'a') "t1").2 ≠
      Except.error StoreError.notesTooLong) ∧
    setSetNotes [demoProject] "proj1" "loc1" (List.replicate 2001 'a') "t1" =
      ([demoProject], .error .notesTooLong) :=
  ⟨(setSetNotes_trimmed_boundary [demoProject] "proj1" "loc1" (List.replicate 2000 'a')
      "t1").2.1 (List.length_replicate 2000 'a'),
   (setSetNotes_trimmed_boundary [demoProject] "proj1" "loc1" (List.replicate 2001 'a')
      "t1").2.2 (by rw [jsTrim_replicate_a, List.length_replicate]; norm_num)⟩

/-! ## C6 -/

/-- C6 counterexample: with a stored project whose persisted name is empty,
the candidate name `""` has the same case-insensitive trimmed name as that
project, yet `createProject` fails with `EMPTY_PROJECT_NAME`, not with the
duplicate-name error, refuting the claimed "iff". -/
theorem createProjectDuplicate_counterexample :
    normalizeName emptyNamedProject.name = normalizeName [] ∧
    emptyNamedProject ∈ [emptyNamedProject] ∧
    (createProject [emptyNamedProject] [] "n1" "t1").2 = .error .emptyProjectName ∧
    (createProject [emptyNamedProject] [] "n1" "t1").2 ≠ .error .duplicateProjectName := by
  exact ⟨rfl, by simp, by decide, by decide⟩

/-- C6 amended: for every store and candidate name whose trim is non-empty,
`createProject` fails with the duplicate-name error iff some stored project
has the same case-insensitive trimmed name; on any failure the store is
unchanged (no project is added). Empty-trim candidates fail with
`EmptyName` instead, regardless of collisions. -/
theorem createProject_duplicate_iff (projects : List Project) (name : JStr)
    (newId now : String) (h : jsTrim name ≠ []) :
    ((createProject projects name newId now).2 = .error .duplicateProjectName ↔
      ∃ p ∈ projects, normalizeName p.name = normalizeName name) ∧
    (∀ e, (createProject projects name newId now).2 = .error e →
      (createProject projects name newId now).1 = projects) := by
  constructor
  · rw [← projectNameExists_none_iff projects name]
    by_cases hEx : projectNameExists projects (jsTrim name) none = true
    · have hEx' : projectNameExists projects name none = true := by
        unfold projectNameExists at hEx ⊢
        simpa [normalizeName_jsTrim] using hEx
      simp [createProject, h, hEx, hEx']
    · have hEx' : ¬projectNameExists projects name none = true := by
        unfold projectNameExists at hEx ⊢
        simpa [normalizeName_jsTrim] using hEx
      simp [createProject, h, hEx, hEx']
  · intro e
    unfold createProject
    by_cases hEx : projectNameExists projects (jsTrim name) none = true <;>
      simp [h, hEx]

/-- Witness for C6: the candidate `"a"` collides case-insensitively with the
stored project named `"A"`. -/
theorem createProject_duplicate_iff_witness :
    ((createProject [demoProject] ['a'] "n1" "t1").2 = .error .duplicateProjectName ↔
      ∃ p ∈ [demoProject], normalizeName p.name = normalizeName ['a']) ∧
    (∀ e, (createProject [demoProject] ['a'] "n1" "t1").2 = .error e →
      (createProject [demoProject] ['a'] "n1" "t1").1 = [demoProject]) :=
  createProject_duplicate_iff [demoProject] ['a'] "n1" "t1" (by decide)

/-! ## C7: resize-target computation -/

theorem jsRound_dist (x : ℚ) : |(jsRound x : ℚ) - x| ≤ 1 / 2 := by
  unfold jsRound
  rw [abs_le]
  constructor
  · have h := Int.sub_one_lt_floor (x + 1 / 2)
    push_cast at h ⊢
    linarith
  · have h := Int.floor_le (x + 1 / 2)
    push_cast at h ⊢
    linarith

theorem jsRound_le_of_le {x y : ℚ} (h : x ≤ y) : jsRound x ≤ jsRound y :=
  Int.floor_le_floor (by linarith)

theorem jsRound_natCast (n : ℕ) : jsRound (n : ℚ) = n := by
  unfold jsRound
  have h0 : (⌊(1 : ℚ) / 2⌋ : ℤ) = 0 := by
    rw [Int.floor_eq_iff] <;> norm_num
  rw [show ((n : ℚ) + 1 / 2) = ((n : ℤ) : ℚ) + (1 / 2 : ℚ) by push_cast; ring,
    Int.floor_int_add, h0, add_zero]

theorem jsRound_nonneg {x : ℚ} (h : 0 ≤ x) : 0 ≤ jsRound x := by
  have := jsRound_le_of_le (show (0 : ℚ) ≤ x from h)
  simpa [show jsRound 0 = ((0 : ℕ) : ℤ) from jsRound_natCast 0] using this

theorem maxSide_pos {w h : ℕ} (hw : 1 ≤ w) : (0 : ℚ) < max (w : ℚ) (h : ℚ) :=
  lt_of_lt_of_le one_pos (le_trans (by exact_mod_cast hw) (le_max_left _ _))

theorem resizeScale_nonneg (M : ℚ) (hM : 0 < M) {w h : ℕ} (hw : 1 ≤ w) :
    0 ≤ resizeScale M w h :=
  le_of_lt (lt_min one_pos (div_pos hM (maxSide_pos hw)))

theorem side_mul_resizeScale_le (M : ℚ) (hM : 0 < M) {w h side : ℕ} (hw : 1 ≤ w)
    (hside : (side : ℚ) ≤ max (w : ℚ) (h : ℚ)) :
    (side : ℚ) * resizeScale M w h ≤ M := by
  unfold resizeScale
  have hpos := maxSide_pos (h := h) hw
  calc (side : ℚ) * min 1 (M / max (w : ℚ) (h : ℚ))
      ≤ max (w : ℚ) (h : ℚ) * (M / max (w : ℚ) (h : ℚ)) := by
        apply mul_le_mul hside (min_le_right _ _) ?_ (le_of_lt hpos)
        exact le_min zero_le_one (le_of_lt (div_pos hM hpos))
    _ = M := by field_simp

theorem resizeScale_eq_one (M : ℚ) {w h : ℕ} (hw : 1 ≤ w)
    (hle : ((max w h : ℕ) : ℚ) ≤ M) : resizeScale M w h = 1 := by
  unfold resizeScale
  rw [Nat.cast_max] at hle
  exact min_eq_left ((one_le_div (maxSide_pos hw)).mpr hle)

/-- Bound for one component of `convertTargetDims`. -/
theorem convert_component_le (M : ℚ) (hM : 0 < M) (bound : ℕ)
    (hbound : 1 ≤ bound) (hMb : M ≤ (bound : ℚ)) {w h side : ℕ} (hw : 1 ≤ w)
    (hside : (side : ℚ) ≤ max (w : ℚ) (h : ℚ)) :
    max 1 (jsRound ((side : ℚ) * resizeScale M w h)).toNat ≤ bound := by
  refine Nat.max_le.mpr ⟨hbound, ?_⟩
  rw [Int.toNat_le]
  calc jsRound ((side : ℚ) * resizeScale M w h)
      ≤ jsRound (bound : ℚ) :=
        jsRound_le_of_le (le_trans (side_mul_resizeScale_le M hM hw hside) hMb)
    _ = bound := jsRound_natCast bound

/-- C7 counterexample: for the decodable 1 x 4000 source the 1600-limit
normalizer computes the target (1, 1600): the exactly scaled width is 0.4,
so the computed width 1 deviates from the scaled width by more than any
rounding (0.6), i.e. the aspect ratio 1:4000 is not preserved within
rounding (it collapses to 1:1600). -/
theorem resizeAspect_counterexample :
    convertTargetDims 1 4000 = (1, 1600) ∧
    ¬ aspectWithinRounding 1600 1 4000 1 1600 := by
  have hscale : resizeScale 1600 1 4000 = 2 / 5 := by
    unfold resizeScale
    rw [max_eq_right (by norm_num : ((1 : ℕ) : ℚ) ≤ ((4000 : ℕ) : ℚ))]
    norm_num
  have hr1 : jsRound (((1 : ℕ) : ℚ) * (2 / 5)) = 0 := by
    unfold jsRound
    rw [Int.floor_eq_iff] <;> norm_num
  have hr2 : jsRound (((4000 : ℕ) : ℚ) * (2 / 5)) = 1600 := by
    unfold jsRound
    rw [Int.floor_eq_iff] <;> norm_num
  constructor
  · unfold convertTargetDims
    rw [hscale, hr1, hr2]
    rfl
  · unfold aspectWithinRounding
    rw [hscale]
    intro hcon
    have h1 := hcon.1
    rw [abs_le] at h1
    norm_num at h1

/-- C7 amended: both normalizer variants never upscale (a source within the
limit is returned unchanged); the 1600-limit variant never exceeds the
limit on either side; and whenever the rounded scaled sides are at least 1
(so neither the `Math.max(1, _)` clamp of the 1600 variant nor the
`|| side` fallback of the 2560 variant fires) the exact claim holds: the
longer side stays within the limit and both sides equal the exactly scaled
dimensions within a rounding error of one half. -/
theorem resize_normalization_spec (w h : ℕ) (hw : 1 ≤ w) (hh : 1 ≤ h) :
    (max w h ≤ 1600 → convertTargetDims w h = (w, h)) ∧
    (max w h ≤ 2560 → prepareTargetDims w h = (w, h)) ∧
    ((convertTargetDims w h).1 ≤ 1600 ∧ (convertTargetDims w h).2 ≤ 1600) ∧
    (1 ≤ jsRound ((w : ℚ) * resizeScale 1600 w h) →
     1 ≤ jsRound ((h : ℚ) * resizeScale 1600 w h) →
      aspectWithinRounding 1600 w h (convertTargetDims w h).1 (convertTargetDims w h).2) ∧
    (1 ≤ jsRound ((w : ℚ) * resizeScale 2560 w h) →
     1 ≤ jsRound ((h : ℚ) * resizeScale 2560 w h) →
      (prepareTargetDims w h).1 ≤ 2560 ∧ (prepareTargetDims w h).2 ≤ 2560 ∧
      aspectWithinRounding 2560 w h (prepareTargetDims w h).1 (prepareTargetDims w h).2) := by
  have hwQ : ((1 : ℕ) : ℚ) ≤ (w : ℚ) := by exact_mod_cast hw
  have hhQ : ((1 : ℕ) : ℚ) ≤ (h : ℚ) := by exact_mod_cast hh
  refine ⟨?_, ?_, ?_, ?_, ?_⟩
  · intro hle
    have hs : resizeScale 1600 w h = 1 := resizeScale_eq_one 1600 hw (by exact_mod_cast hle)
    unfold convertTargetDims
    rw [hs, mul_one, mul_one, jsRound_natCast, jsRound_natCast, Int.toNat_natCast,
      Int.toNat_natCast, Nat.max_eq_right hw, Nat.max_eq_right hh]
  · intro hle
    have hs : resizeScale 2560 w h = 1 := resizeScale_eq_one 2560 hw (by exact_mod_cast hle)
    unfold prepareTargetDims
    rw [hs, mul_one, mul_one, jsRound_natCast, jsRound_natCast, Int.toNat_natCast,
      Int.toNat_natCast, if_neg (by omega), if_neg (by omega)]
  · exact ⟨convert_component_le 1600 (by norm_num) 1600 (by norm_num) (by norm_num) hw
        (le_max_left _ _),
      convert_component_le 1600 (by norm_num) 1600 (by norm_num) (by norm_num) hw
        (le_max_right _ _)⟩
  · intro hjw hjh
    have h0w : 0 ≤ jsRound ((w : ℚ) * resizeScale 1600 w h) := le_trans one_pos.le hjw
    have h0h : 0 ≤ jsRound ((h : ℚ) * resizeScale 1600 w h) := le_trans one_pos.le hjh
    unfold convertTargetDims aspectWithinRounding
    rw [Nat.max_eq_right ((Int.le_toNat h0w).mpr (by exact_mod_cast hjw)),
      Nat.max_eq_right ((Int.le_toNat h0h).mpr (by exact_mod_cast hjh))]
    constructor
    · rw [show (((jsRound ((w : ℚ) * resizeScale 1600 w h)).toNat : ℕ) : ℚ)
          = ((jsRound ((w : ℚ) * resizeScale 1600 w h) : ℤ) : ℚ) by
        rw [← Int.cast_natCast, Int.toNat_of_nonneg h0w]]
      exact jsRound_dist _
    · rw [show (((jsRound ((h : ℚ) * resizeScale 1600 w h)).toNat : ℕ) : ℚ)
          = ((jsRound ((h : ℚ) * resizeScale 1600 w h) : ℤ) : ℚ) by
        rw [← Int.cast_natCast, Int.toNat_of_nonneg h0h]]
      exact jsRound_dist _
  · intro hjw hjh
    have h0w : 0 ≤ jsRound ((w : ℚ) * resizeScale 2560 w h) := le_trans one_pos.le hjw
    have h0h : 0 ≤ jsRound ((h : ℚ) * resizeScale 2560 w h) := le_trans one_pos.le hjh
    have hnw : (jsRound ((w : ℚ) * resizeScale 2560 w h)).toNat ≠ 0 := by
      have := (Int.le_toNat h0w).mpr (by exact_mod_cast hjw : ((1 : ℕ) : ℤ) ≤ _)
      omega
    have hnh : (jsRound ((h : ℚ) * resizeScale 2560 w h)).toNat ≠ 0 := by
      have := (Int.le_toNat h0h).mpr (by exact_mod_cast hjh : ((1 : ℕ) : ℤ) ≤ _)
      omega
    unfold prepareTargetDims aspectWithinRounding
    rw [if_neg hnw, if_neg hnh]
    refine ⟨?_, ?_, ?_, ?_⟩
    · rw [Int.toNat_le]
      calc jsRound ((w : ℚ) * resizeScale 2560 w h)
          ≤ jsRound ((2560 : ℕ) : ℚ) := jsRound_le_of_le
            (le_trans (side_mul_resizeScale_le 2560 (by norm_num) hw (le_max_left _ _))
              (by norm_num))
        _ = 2560 := jsRound_natCast 2560
    · rw [Int.toNat_le]
      calc jsRound ((h : ℚ) * resizeScale 2560 w h)
          ≤ jsRound ((2560 : ℕ) : ℚ) := jsRound_le_of_le
            (le_trans (side_mul_resizeScale_le 2560 (by norm_num) hw (le_max_right _ _))
              (by norm_num))
        _ = 2560 := jsRound_natCast 2560
    · rw [show (((jsRound ((w : ℚ) * resizeScale 2560 w h)).toNat : ℕ) : ℚ)
          = ((jsRound ((w : ℚ) * resizeScale 2560 w h) : ℤ) : ℚ) by
        rw [← Int.cast_natCast, Int.toNat_of_nonneg h0w]]
      exact jsRound_dist _
    · rw [show (((jsRound ((h : ℚ) * resizeScale 2560 w h)).toNat : ℕ) : ℚ)
          = ((jsRound ((h : ℚ) * resizeScale 2560 w h) : ℤ) : ℚ) by
        rw [← Int.cast_natCast, Int.toNat_of_nonneg h0h]]
      exact jsRound_dist _

/-- Witness for C7 at the spec's 4000 x 3000 example (downscaled to
1600 x 1200 by the 1600-limit variant, kept by neither clamp). -/
theorem resize_normalization_spec_witness :
    convertTargetDims 4000 3000 = (1600, 1200) ∧
    aspectWithinRounding 1600 4000 3000 1600 1200 := by
  have hscale : resizeScale 1600 4000 3000 = 2 / 5 := by
    unfold resizeScale
    rw [max_eq_left (by norm_num : ((3000 : ℕ) : ℚ) ≤ ((4000 : ℕ) : ℚ))]
    norm_num
  have hrw : jsRound (((4000 : ℕ) : ℚ) * resizeScale 1600 4000 3000) = 1600 := by
    rw [hscale]
    unfold jsRound
    rw [Int.floor_eq_iff] <;> norm_num
  have hrh : jsRound (((3000 : ℕ) : ℚ) * resizeScale 1600 4000 3000) = 1200 := by
    rw [hscale]
    unfold jsRound
    rw [Int.floor_eq_iff] <;> norm_num
  have hmain := (resize_normalization_spec 4000 3000 (by norm_num) (by norm_num)).2.2.2.1
    (by rw [hrw]; norm_num) (by rw [hrh]; norm_num)
  have hdims : convertTargetDims 4000 3000 = (1600, 1200) := by
    unfold convertTargetDims
    rw [hrw, hrh]
    rfl
  exact ⟨hdims, by rw [hdims] at hmain; exact hmain⟩

/-! ## C8: coordinate rounding -/

/-- C8 counterexample: `setSetCoords` — the coordinate-setting operation —
stores the pair it is passed verbatim: passing (40.4168123, -3.7038123)
stores exactly those values, which differ from the claimed 6-decimal
rounded (40.416812, -3.703812). -/
theorem setSetCoordsVerbatim_counterexample :
    (setSetCoords [demoProject] "proj1" "loc1"
        (some ⟨404168123 / 10000000, -37038123 / 10000000⟩) "t1").2 =
      some { demoProject with
             updatedAt := "t1"
             locations := [{ demoLocation with
                             coords := some ⟨404168123 / 10000000, -37038123 / 10000000⟩
                             updatedAt := "t1" }] } ∧
    (⟨404168123 / 10000000, -37038123 / 10000000⟩ : LocationCoordinates) ≠
      ⟨40416812 / 1000000, -3703812 / 1000000⟩ := by
  constructor
  · rfl
  · intro hc
    rw [LocationCoordinates.mk.injEq] at hc
    have := hc.1
    norm_num at this

/-- C8 amended: the 6-decimal rounding is applied by the caller
(`handleUseMyLocation`) before `setSetCoords` stores the pair verbatim:
the handler invokes `setSetCoords` with the `toFixed(6)`-rounded pair,
`coordsUpdater` always stores exactly the pair it receives, rounding the
spec's example (40.4168123, -3.7038123) to (40.416812, -3.703812), and
storing that rounded pair on the demo store. -/
theorem coordsRounding_spec (projects : List Project) (pid lid : String)
    (lat lng : ℚ) (now : String) :
    handleUseMyLocation projects pid lid lat lng now =
      setSetCoords projects pid lid
        (some { lat := jsToFixed6 lat, lng := jsToFixed6 lng }) now ∧
    (∀ (c : LocationCoordinates) (l : LocationSet),
      ∃ l', coordsUpdater (some c) l = some l' ∧ l'.coords = some c) ∧
    jsToFixed6 (404168123 / 10000000) = 40416812 / 1000000 ∧
    jsToFixed6 (-37038123 / 10000000) = -3703812 / 1000000 ∧
    (handleUseMyLocation [demoProject] "proj1" "loc1"
        (404168123 / 10000000) (-37038123 / 10000000) "t1").2 =
      some { demoProject with
             updatedAt := "t1"
             locations := [{ demoLocation with
                             coords := some ⟨40416812 / 1000000, -3703812 / 1000000⟩
                             updatedAt := "t1" }] } := by
  have hlat : jsToFixed6 (404168123 / 10000000) = 40416812 / 1000000 := by
    unfold jsToFixed6
    rw [if_pos (by norm_num)]
    rw [show ⌊(404168123 / 10000000 : ℚ) * 1000000 + 1 / 2⌋ = 40416812 from by
      rw [Int.floor_eq_iff] <;> norm_num]
    norm_num
  have hlng : jsToFixed6 (-37038123 / 10000000) = -3703812 / 1000000 := by
    unfold jsToFixed6
    rw [if_neg (by norm_num)]
    rw [show ⌊-(-37038123 / 10000000 : ℚ) * 1000000 + 1 / 2⌋ = 3703812 from by
      rw [Int.floor_eq_iff] <;> norm_num]
    norm_num
  refine ⟨rfl, ?_, hlat, hlng, ?_⟩
  · intro c l
    rcases hc : l.coords with _ | a
    · exact ⟨{ l with coords := some c }, by simp [coordsUpdater, hc], rfl⟩
    · by_cases heq : a.lat = c.lat ∧ a.lng = c.lng
      · have hac : a = c := by
          obtain ⟨a1, a2⟩ := a
          obtain ⟨c1, c2⟩ := c
          exact congrArg₂ LocationCoordinates.mk heq.1 heq.2
        exact ⟨l, by simp [coordsUpdater, hc, heq], by rw [hc, hac]⟩
      · exact ⟨{ l with coords := some c }, by simp [coordsUpdater, hc, heq], rfl⟩
  · unfold handleUseMyLocation
    rw [hlat, hlng]
    rfl

/-! ## C9: frame conditions of the location mutators -/

/-- Either `updateLocations` fails, or the list splits at the first
location carrying the target id and only that entry is rewritten, with
`id`/`createdAt` preserved and `updatedAt` stamped. -/
theorem updateLocations_characterize (lid : String)
    (f : LocationSet → Option LocationSet) (now : String) (ls : List LocationSet) :
    updateLocations lid f now ls = none ∨
    ∃ pre l r post, ls = pre ++ l :: post ∧ (∀ x ∈ pre, x.id ≠ lid) ∧ l.id = lid ∧
      f l = some r ∧
      updateLocations lid f now ls =
        some (pre ++ { r with id := l.id, createdAt := l.createdAt, updatedAt := now }
          :: post) := by
  induction ls with
  | nil => exact Or.inl rfl
  | cons l rest ih =>
    by_cases hid : l.id = lid
    · rcases hf : f l with _ | r
      · exact Or.inl (by simp [updateLocations, hid, hf])
      · exact Or.inr ⟨[], l, r, rest, rfl, by simp, hid, hf,
          by simp [updateLocations, hid, hf]⟩
    · rcases ih with hnone | ⟨pre, l0, r, post, hls, hpre, hl0, hf, heq⟩
      · exact Or.inl (by simp [updateLocations, hid, hnone])
      · refine Or.inr ⟨l :: pre, l0, r, post, by rw [hls]; rfl, ?_, hl0, hf, ?_⟩
        · intro x hx
          rcases List.mem_cons.mp hx with hx | hx
          · rw [hx]; exact hid
          · exact hpre x hx
        · simp [updateLocations, hid, heq]

theorem updateProjectStep_of_ne (pid lid : String)
    (f : LocationSet → Option LocationSet) (now : String) {p : Project}
    (hid : p.id ≠ pid) : updateProjectStep pid lid f now p = (p, none) := by
  simp [updateProjectStep, hid]

theorem updateProjectStep_some (pid lid : String)
    (f : LocationSet → Option LocationSet) (now : String) {p q : Project}
    (h : (updateProjectStep pid lid f now p).2 = some q) :
    p.id = pid ∧ ∃ ls, updateLocations lid f now p.locations = some ls ∧
      q = { p with updatedAt := now, locations := ls } := by
  by_cases hid : p.id = pid
  · rcases hls : updateLocations lid f now p.locations with _ | ls
    · rw [updateProjectStep, if_pos hid, hls] at h
      exact absurd h (by simp)
    · rw [updateProjectStep, if_pos hid, hls] at h
      simp only [Option.some.injEq] at h
      exact ⟨hid, ls, rfl, h.symm⟩
  · rw [updateProjectStep_of_ne pid lid f now hid] at h
    exact absurd h (by simp)

/-- C9: every location mutation that goes through `updateLocation`
(`setSetStatus`, `setSetNotes`, `setSetCoords`, `addSetPhoto`,
`removeSetPhoto`) and returns an updated project: keeps the store intact
when it returns `undefined`; keeps the store's length; leaves every
project with a different id untouched at its position; and on success the
returned project comes from a stored project with the target id whose
location list changed only at the first location carrying the target
location id — that location keeps its `id` and `createdAt` and gets
`updatedAt = now`, the same stamp the owning project gets. Moreover the
updaters of `setSetStatus`, `setSetNotes`, `setSetCoords` and `addSetPhoto`
never return `null`, so even a write of an identical value still advances
both timestamps. -/
theorem updateLocation_frame (projects : List Project) (pid lid : String)
    (f : LocationSet → Option LocationSet) (now : String) :
    ((updateLocation projects pid lid f now).2 = none →
      (updateLocation projects pid lid f now).1 = projects) ∧
    (updateLocation projects pid lid f now).1.length = projects.length ∧
    (∀ (i : ℕ) (p : Project), projects[i]? = some p → p.id ≠ pid →
      (updateLocation projects pid lid f now).1[i]? = some p) ∧
    (∀ q, (updateLocation projects pid lid f now).2 = some q →
      ∃ p ∈ projects, p.id = pid ∧ updatePreservesFrame lid now p q) ∧
    (∀ (s : LocationStatus) (l : LocationSet), statusUpdater s l ≠ none) ∧
    (∀ (t : JStr) (l : LocationSet), notesUpdater t l ≠ none) ∧
    (∀ (c : Option LocationCoordinates) (l : LocationSet), coordsUpdater c l ≠ none) ∧
    (∀ (inp : AddPhotoInput) (i n : String) (l : LocationSet),
      photoUpdater inp i n l ≠ none) := by
  refine ⟨?_, ?_, ?_, ?_, ?_, ?_, ?_, ?_⟩
  · intro hnone
    unfold updateLocation at hnone ⊢
    rcases hg : (((projects.map (updateProjectStep pid lid f now)).filterMap
        Prod.snd).getLast?) with _ | q
    · rfl
    · rw [hg] at hnone
      exact absurd hnone (by simp)
  · unfold updateLocation
    rcases hg : (((projects.map (updateProjectStep pid lid f now)).filterMap
        Prod.snd).getLast?) with _ | q
    · rfl
    · simp
  · intro i p hip hne
    unfold updateLocation
    rcases hg : (((projects.map (updateProjectStep pid lid f now)).filterMap
        Prod.snd).getLast?) with _ | q
    · exact hip
    · simp only [List.map_map, List.getElem?_map, hip, Option.map_some',
        Function.comp_apply, updateProjectStep_of_ne pid lid f now hne]
  · intro q hq
    unfold updateLocation at hq
    rcases hg : (((projects.map (updateProjectStep pid lid f now)).filterMap
        Prod.snd).getLast?) with _ | q'
    · rw [hg] at hq
      exact absurd hq (by simp)
    · rw [hg] at hq
      simp only [Option.some.injEq] at hq
      rw [← hq]
      have hmem : q' ∈ (projects.map (updateProjectStep pid lid f now)).filterMap
          Prod.snd := List.mem_of_mem_getLast? (by rw [hg]; rfl)
      obtain ⟨pair, hpairMem, hpairEq⟩ := List.mem_filterMap.mp hmem
      obtain ⟨p, hpMem, hpEq⟩ := List.mem_map.mp hpairMem
      have hstep : (updateProjectStep pid lid f now p).2 = some q' := by
        rw [hpEq]; exact hpairEq
      obtain ⟨hpid, ls, hls, hqEq⟩ := updateProjectStep_some pid lid f now hstep
      rcases updateLocations_characterize lid f now p.locations with hnone |
        ⟨pre, l, r, post, hsplit, hpre, hlid, _, hupd⟩
      · rw [hnone] at hls
        exact absurd hls (by simp)
      · rw [hupd] at hls
        simp only [Option.some.injEq] at hls
        refine ⟨p, hpMem, hpid, ?_⟩
        rw [hqEq]
        refine ⟨rfl, rfl, rfl, rfl, pre, l,
          { r with id := l.id, createdAt := l.createdAt, updatedAt := now }, post,
          hsplit, ?_, hpre, hlid, rfl, rfl, rfl⟩
        rw [← hls]
  · intro s l
    unfold statusUpdater
    split <;> simp
  · intro t l
    unfold notesUpdater
    split <;> simp
  · intro c l
    rcases hc : l.coords with _ | a <;> rcases c with _ | b <;>
      simp [coordsUpdater, hc] <;> split <;> simp
  · intro inp i n l
    unfold photoUpdater
    split <;> simp

/-- Witness for C9: setting the status the demo location already has still
stamps both `updatedAt` fields with the new timestamp. -/
theorem updateLocation_frame_witness :
    ∃ p ∈ [demoProject], p.id = "proj1" ∧
      updatePreservesFrame "loc1" "t1" p
        { demoProject with
          updatedAt := "t1"
          locations := [{ demoLocation with updatedAt := "t1" }] } :=
  (updateLocation_frame [demoProject] "proj1" "loc1"
    (statusUpdater LocationStatus.pending) "t1").2.2.2.1
    { demoProject with
      updatedAt := "t1"
      locations := [{ demoLocation with updatedAt := "t1" }] } (by rfl)

/-! ## C4: photo capacity -/

/-- The batch loop adds at most `remaining.toNat` photos. -/
theorem processFiles_length_le (now : String) (files : List BatchFile) :
    ∀ (photos : List LocationPhoto) (remaining : ℤ) (added duplicate failed : ℕ),
      (processFiles photos remaining added duplicate failed now files).photos.length ≤
        photos.length + remaining.toNat := by
  induction files with
  | nil =>
    intro photos remaining a d fl
    simp [processFiles]
  | cons f rest ih =>
    intro photos remaining a d fl
    by_cases hr : remaining ≤ 0
    · simp [processFiles, hr]
    · rcases hp : f.payload with _ | pl
      · simpa [processFiles, hr, hp] using ih photos remaining a d (fl + 1)
      · by_cases hdup : (photos.any fun ph => ph.dataUrl == pl) = true
        · simpa [processFiles, hr, hp, hdup] using ih photos remaining a (d + 1) fl
        · have hbound := ih (photos ++
            [{ id := f.name, dataUrl := pl, createdAt := now, fileName := some f.name }])
            (remaining - 1) (a + 1) d fl
          rw [List.length_append, List.length_singleton] at hbound
          have : (remaining - 1).toNat + 1 = remaining.toNat := by omega
          simp only [processFiles, hr, hp, hdup, if_neg, ite_false]
          calc (processFiles (photos ++
                [{ id := f.name, dataUrl := pl, createdAt := now,
                   fileName := some f.name }]) (remaining - 1) (a + 1) d fl now
                rest).photos.length
              ≤ photos.length + 1 + (remaining - 1).toNat := hbound
            _ = photos.length + remaining.toNat := by omega

/-- C4: a location at the 10-photo cap rejects any batch upfront with the
capacity outcome, leaving the photo list untouched; and from any starting
count within the cap, no batch pushes the count past 10 — files processed
after the remaining slots hit zero add nothing. -/
theorem photoCapacity_enforced (photos : List LocationPhoto)
    (files : List BatchFile) (now : String) :
    (photos.length = 10 → files ≠ [] →
      (handlePhotoSelection photos files now).capacityUpfront = true ∧
      (handlePhotoSelection photos files now).photos = photos) ∧
    (photos.length ≤ 10 → (handlePhotoSelection photos files now).photos.length ≤ 10) := by
  constructor
  · intro hlen hne
    have hr : ((MAX_PHOTOS : ℤ) - photos.length) ≤ 0 := by
      rw [hlen]; simp [MAX_PHOTOS]
    constructor <;> simp [handlePhotoSelection, hne, hr]
  · intro hlen
    by_cases hne : files = []
    · simp [handlePhotoSelection, hne, hlen]
    · by_cases hr : ((MAX_PHOTOS : ℤ) - photos.length) ≤ 0
      · simp [handlePhotoSelection, hne, hr, hlen]
      · have hb := processFiles_length_le now files photos
          ((MAX_PHOTOS : ℤ) - photos.length) 0 0 0
        simp only [handlePhotoSelection, hne, hr, ite_false, if_neg]
        calc (processFiles photos ((MAX_PHOTOS : ℤ) - photos.length) 0 0 0 now
              files).photos.length
            ≤ photos.length + ((MAX_PHOTOS : ℤ) - photos.length).toNat := hb
          _ ≤ 10 := by simp only [MAX_PHOTOS]; omega

/-- Witness for C4: a full location rejects a one-file batch upfront. -/
theorem photoCapacity_enforced_witness :
    (handlePhotoSelection tenPhotoLocationPhotos [dupBatchFile] "t1").capacityUpfront
        = true ∧
    (handlePhotoSelection tenPhotoLocationPhotos [dupBatchFile] "t1").photos =
      tenPhotoLocationPhotos :=
  (photoCapacity_enforced tenPhotoLocationPhotos [dupBatchFile] "t1").1
    (by decide) (by decide)

/-! ## C3: photo-add idempotence -/

/-- C3 counterexample: on a location holding nine photos, a batch with the
same file twice adds one photo, but the second attempt is cut off by the
capacity check (`limitReached`) before any payload comparison happens, so
it is never reported as a duplicate (`duplicateCount = 0`), contrary to
the claim's "for every Location ... reports it as a duplicate". -/
theorem photoAddIdempotent_counterexample :
    (handlePhotoSelection ninePhotoLocationPhotos [dupBatchFile, dupBatchFile]
        "t1").duplicateCount = 0 ∧
    (handlePhotoSelection ninePhotoLocationPhotos [dupBatchFile, dupBatchFile]
        "t1").limitReached = true ∧
    (handlePhotoSelection ninePhotoLocationPhotos [dupBatchFile, dupBatchFile]
        "t1").addedCount = 1 := by
  refine ⟨?_, ?_, ?_⟩ <;> decide

/-- C3 amended: on any location whose stored payloads do not contain the
file's normalized payload and which has at least two free slots, adding
the same file twice stores exactly one new photo: the first pass appends
it, the second pass finds the byte-identical payload among the stored
ones, reports a duplicate and adds nothing. -/
theorem photoAddIdempotent_dedup (photos : List LocationPhoto)
    (d : String) (f1 f2 now : String) (hlen : photos.length ≤ 8)
    (habs : ∀ ph ∈ photos, ph.dataUrl ≠ d) :
    (handlePhotoSelection photos
        [{ payload := some d, name := f1 }, { payload := some d, name := f2 }]
        now).photos =
      photos ++ [{ id := f1, dataUrl := d, createdAt := now, fileName := some f1 }] ∧
    (handlePhotoSelection photos
        [{ payload := some d, name := f1 }, { payload := some d, name := f2 }]
        now).addedCount = 1 ∧
    (handlePhotoSelection photos
        [{ payload := some d, name := f1 }, { payload := some d, name := f2 }]
        now).duplicateCount = 1 ∧
    payloadCount (handlePhotoSelection photos
        [{ payload := some d, name := f1 }, { payload := some d, name := f2 }]
        now).photos d = 1 := by
  have hany : (photos.any fun ph => ph.dataUrl == d) = false := by
    rw [Bool.eq_false_iff]
    intro hc
    obtain ⟨ph, hmem, hb⟩ := List.any_eq_true.mp hc
    exact habs ph hmem (by simpa using hb)
  have hr1 : ¬((MAX_PHOTOS : ℤ) - photos.length ≤ 0) := by
    simp only [MAX_PHOTOS]; omega
  have hr2 : ¬((MAX_PHOTOS : ℤ) - photos.length - 1 ≤ 0) := by
    simp only [MAX_PHOTOS]; omega
  have hany2 : ((photos ++
      [({ id := f1, dataUrl := d, createdAt := now, fileName := some f1 } :
        LocationPhoto)]).any fun ph => ph.dataUrl == d) = true := by
    rw [List.any_append]
    simp
  have hres : handlePhotoSelection photos
      [{ payload := some d, name := f1 }, { payload := some d, name := f2 }] now =
      { photos := photos ++
          [{ id := f1, dataUrl := d, createdAt := now, fileName := some f1 }],
        addedCount := 1, duplicateCount := 1, failedCount := 0,
        limitReached := false, capacityUpfront := false } := by
    simp [handlePhotoSelection, hr1, processFiles, hany, hr2, hany2]
  refine ⟨by rw [hres], by rw [hres], by rw [hres], ?_⟩
  rw [hres]
  unfold payloadCount
  rw [List.filter_append]
  have hnil : photos.filter (fun ph => ph.dataUrl == d) = [] := by
    rw [List.filter_eq_nil_iff]
    intro ph hmem
    simpa using habs ph hmem
  rw [hnil]
  simp

/-- Witness for C3 (amended) on the empty photo list. -/
theorem photoAddIdempotent_dedup_witness :
    (handlePhotoSelection [] [{ payload := some "d", name := "a.jpg" },
        { payload := some "d", name := "b.jpg" }] "t1").photos =
      [{ id := "a.jpg", dataUrl := "d", createdAt := "t1", fileName := some "a.jpg" }] ∧
    (handlePhotoSelection [] [{ payload := some "d", name := "a.jpg" },
        { payload := some "d", name := "b.jpg" }] "t1").addedCount = 1 ∧
    (handlePhotoSelection [] [{ payload := some "d", name := "a.jpg" },
        { payload := some "d", name := "b.jpg" }] "t1").duplicateCount = 1 ∧
    payloadCount (handlePhotoSelection [] [{ payload := some "d", name := "a.jpg" },
        { payload := some "d", name := "b.jpg" }] "t1").photos "d" = 1 := by
  have h := photoAddIdempotent_dedup [] "d" "a.jpg" "b.jpg" "t1" (by decide)
    (by intro ph hmem; exact absurd hmem (List.not_mem_nil ph))
  simpa using h

/-! ## C2: image-grid row handling -/

/-- C2 counterexample: with the report's own layout parameters (A4,
margins 76, content width `pageWidth - 152`, 3 columns) and the grid
started at `y = 600`, a square first image (required height 139.76) fits
on the page, but the tall second image (required height 180, capped) does
not: the loop places cell 0 on page 0 and then breaks the page inside the
row, placing cell 1 at the top of page 1 — the first grid row (indices
0 and 1 of a 3-column grid) is split across two pages, refuting
"overflow is evaluated for the whole row before any cell is placed". -/
theorem imageGridRowSplit_counterexample :
    resolveColumns (pageWidthA4 - 152) = 3 ∧
    addImageGridPlacements pageHeightA4 600 76 76 (pageWidthA4 - 152) 12 3 180
        [(100, 100), (100, 200)] [] =
      [{ page := 0, column := 0, y := 600, height := 13976 / 100 },
       { page := 1, column := 0, y := 76, height := 180 }] := by
  constructor
  · unfold resolveColumns pageWidthA4
    norm_num
  · have hbase : (pageWidthA4 - 152 - 12 * ((3 : ℕ) - 1 : ℚ)) / (3 : ℕ) = 13976 / 100 := by
      unfold pageWidthA4
      norm_num
    have hreq1 : cellRequiredHeight (13976 / 100) 180 100 100 false = 13976 / 100 := by
      unfold cellRequiredHeight
      norm_num
    have hreq2 : cellRequiredHeight (13976 / 100) 180 100 200 false = 180 := by
      unfold cellRequiredHeight
      norm_num
    unfold addImageGridPlacements
    rw [show ([(100, 100), (100, 200)] : List (ℚ × ℚ)).enum =
      [(0, (100, 100)), (1, (100, 200))] from rfl]
    simp only [List.map_cons, List.map_nil, List.getD, List.getElem?_nil, List.get?_nil,
      Option.getD_none]
    rw [hbase, hreq1, hreq2]
    rw [gridLoop, if_neg (by unfold pageHeightA4; norm_num),
      if_neg (by norm_num)]
    rw [gridLoop, if_pos (by unfold pageHeightA4; norm_num),
      if_pos (by norm_num)]
    rw [gridLoop]

/-- C2 amended: `addImageGrid` evaluates page overflow per cell, not per
row: each cell is checked immediately before placement, a cell that would
cross the bottom margin restarts at the top margin of a fresh page in
column 0, and consequently no placed cell ever crosses the bottom margin
(whenever each cell fits an empty page) — but cells placed earlier in the
same row stay behind, so a row may be split. `addImageGridPlacements`
is exactly this loop over the per-cell required heights. -/
theorem imageGridOverflowPerCell (pageHeight marginTop marginBottom gap : ℚ)
    (columns : ℕ) (reqs : List ℚ)
    (hreq : ∀ r ∈ reqs, r ≤ pageHeight - marginTop - marginBottom) :
    ∀ (page : ℕ) (cursorY : ℚ) (col : ℕ) (row : ℚ),
      ∀ pl ∈ gridLoop pageHeight marginTop marginBottom gap columns reqs
          page cursorY col row,
        pl.y + pl.height ≤ pageHeight - marginBottom := by
  induction reqs with
  | nil =>
    intro page cursorY col row pl hpl
    simp [gridLoop] at hpl
  | cons req rest ih =>
    intro page cursorY col row pl hpl
    have hr : req ≤ pageHeight - marginTop - marginBottom := hreq req (by simp)
    have hrest : ∀ r ∈ rest, r ≤ pageHeight - marginTop - marginBottom :=
      fun r h => hreq r (by simp [h])
    rw [gridLoop] at hpl
    by_cases hb : pageHeight - marginBottom < cursorY + req
    · rw [if_pos hb] at hpl
      by_cases hcols : 1 = columns ∨ rest = []
      · rw [if_pos hcols] at hpl
        rcases List.mem_cons.mp hpl with hpl | hpl
        · rw [hpl]
          dsimp only
          linarith
        · exact ih hrest _ _ _ _ pl hpl
      · rw [if_neg hcols] at hpl
        rcases List.mem_cons.mp hpl with hpl | hpl
        · rw [hpl]
          dsimp only
          linarith
        · exact ih hrest _ _ _ _ pl hpl
    · rw [if_neg hb] at hpl
      by_cases hcols : col + 1 = columns ∨ rest = []
      · rw [if_pos hcols] at hpl
        rcases List.mem_cons.mp hpl with hpl | hpl
        · rw [hpl]
          dsimp only
          linarith
        · exact ih hrest _ _ _ _ pl hpl
      · rw [if_neg hcols] at hpl
        rcases List.mem_cons.mp hpl with hpl | hpl
        · rw [hpl]
          dsimp only
          linarith
        · exact ih hrest _ _ _ _ pl hpl

/-- Witness for C2 (amended): a single 10-point cell started at the top
margin of the A4 page stays above the bottom margin. -/
theorem imageGridOverflowPerCell_witness :
    ({ page := 0, column := 0, y := 76, height := 10 } : CellPlacement).y +
      ({ page := 0, column := 0, y := 76, height := 10 } : CellPlacement).height ≤
        pageHeightA4 - 76 := by
  have hlist : gridLoop pageHeightA4 76 76 12 3 [10] 0 76 0 0 =
      [{ page := 0, column := 0, y := 76, height := 10 }] := by
    rw [gridLoop, if_neg (by unfold pageHeightA4; norm_num),
      if_pos (Or.inr rfl), gridLoop]
  exact imageGridOverflowPerCell pageHeightA4 76 76 12 3 [10]
    (by
      intro r hr
      rw [List.mem_singleton] at hr
      rw [hr]
      unfold pageHeightA4
      norm_num) 0 76 0 0
    { page := 0, column := 0, y := 76, height := 10 }
    (by rw [hlist]; exact List.mem_singleton_self _)

/-! ## C1: two-pass project-report index -/

theorem linesPerPage_eq : linesPerPage = 35 := by
  unfold linesPerPage pageHeightA4
  rw [show ⌊((84189 / 100 : ℚ) - 76 - 76 - 56) / 18⌋ = 35 from by
    rw [Int.floor_eq_iff] <;> norm_num]
  rfl

theorem indexPageCount_eq_one {n : ℕ} (hn : n ≤ 35) : indexPageCount n = 1 := by
  unfold indexPageCount
  rw [linesPerPage_eq]
  have hceil : ⌈(n : ℚ) / (35 : ℕ)⌉ ≤ 1 := by
    apply Int.ceil_le.mpr
    push_cast
    rw [div_le_one (by norm_num)]
    exact_mod_cast hn
  have hceil0 : 0 ≤ ⌈(n : ℚ) / (35 : ℕ)⌉ := Int.ceil_nonneg (by positivity)
  omega

theorem entryAdvance_one : entryAdvance 1 = 21 := by
  unfold entryAdvance
  norm_num

/-- On one index page starting at `cursorY = 132 + 21k`, single-line
entries (each consuming 21 points) fill the remaining `30 - k` slots. -/
theorem fillPage_ones (counts : List ℕ) (hcounts : ∀ c ∈ counts, c = 1) :
    ∀ k : ℕ, k ≤ 30 → fillPage (132 + 21 * (k : ℚ)) counts = min counts.length (30 - k) := by
  induction counts with
  | nil =>
    intro k hk
    simp [fillPage]
  | cons c rest ih =>
    intro k hk
    have hc : c = 1 := hcounts c (by simp)
    have hrest : ∀ x ∈ rest, x = 1 := fun x hx => hcounts x (by simp [hx])
    by_cases hk29 : k ≤ 29
    · have hkQ : (k : ℚ) ≤ 29 := by exact_mod_cast hk29
      rw [fillPage, if_pos (by unfold pageHeightA4; linarith), hc, entryAdvance_one,
        show (132 + 21 * (k : ℚ)) + 21 = 132 + 21 * ((k + 1 : ℕ) : ℚ) by push_cast; ring,
        ih hrest (k + 1) (by omega)]
      rw [List.length_cons]
      omega
    · have hk30 : k = 30 := by omega
      have hkQ : (k : ℚ) = 30 := by exact_mod_cast hk30
      rw [fillPage, if_neg (by unfold pageHeightA4; rw [hkQ]; norm_num)]
      omega

theorem fillPage_le (counts : List ℕ) :
    ∀ cursorY : ℚ, fillPage cursorY counts ≤ counts.length := by
  induction counts with
  | nil =>
    intro cursorY
    simp [fillPage]
  | cons c rest ih =>
    intro cursorY
    rw [fillPage]
    by_cases hcond : cursorY ≤ (pageHeightA4 - 76) - 18
    · rw [if_pos hcond, List.length_cons]
      have := ih (cursorY + entryAdvance c)
      omega
    · rw [if_neg hcond]
      exact Nat.zero_le _

theorem placedEntries_le (ipc : ℕ) :
    ∀ counts : List ℕ, placedEntries ipc counts ≤ counts.length := by
  induction ipc with
  | zero =>
    intro counts
    simp [placedEntries]
  | succ m ih =>
    intro counts
    rw [placedEntries]
    have h1 := fillPage_le counts (76 + 56)
    have h2 := ih (counts.drop (fillPage (76 + 56) counts))
    rw [List.length_drop] at h2
    omega

theorem pass1Records_fst_eq_snd :
    ∀ (extras : List ℕ) (pages : ℕ), ∀ pr ∈ pass1Records pages extras, pr.1 = pr.2 := by
  intro extras
  induction extras with
  | nil =>
    intro pages pr hpr
    simp [pass1Records] at hpr
  | cons e rest ih =>
    intro pages pr hpr
    rw [pass1Records] at hpr
    rcases List.mem_cons.mp hpr with hpr | hpr
    · rw [hpr]
    · exact ih _ pr hpr

theorem pass1Records_length :
    ∀ (extras : List ℕ) (pages : ℕ), (pass1Records pages extras).length = extras.length := by
  intro extras
  induction extras with
  | nil =>
    intro pages
    rfl
  | cons e rest ih =>
    intro pages
    rw [pass1Records, List.length_cons, ih, List.length_cons]

/-- C1 counterexample: a project with 31 locations, all with single-line
summaries and one-page details, renders 31 detail sections in pass 1 but
pass 2 writes only 30 index entries — `linesPerPage` estimates 35 entries
per pre-allocated index page while each entry actually consumes 21 points
(30 per page), so the 31st location gets no index entry, refuting "every
Location gets exactly one index entry". -/
theorem projectIndexEntries_counterexample :
    (pass1Records (1 + indexPageCount 31) (List.replicate 31 0)).length = 31 ∧
    (indexEntryPages (List.replicate 31 0) (List.replicate 31 1)).length = 30 := by
  have hipc : indexPageCount 31 = 1 := indexPageCount_eq_one (by norm_num)
  have hfill : fillPage (76 + 56) (List.replicate 31 1) = 30 := by
    have h := fillPage_ones (List.replicate 31 1)
      (fun c hc => List.eq_of_mem_replicate hc) 0 (by norm_num)
    rw [show (132 + 21 * ((0 : ℕ) : ℚ)) = 76 + 56 by norm_num] at h
    rw [h, List.length_replicate]
    omega
  have hplaced : placedEntries (indexPageCount ((List.replicate 31 0 : List ℕ)).length)
      (List.replicate 31 1) = 30 := by
    rw [List.length_replicate, hipc, placedEntries, hfill, placedEntries]
  constructor
  · rw [pass1Records_length, List.length_replicate]
  · rw [indexEntryPages, hplaced, List.length_take, List.length_map,
      pass1Records_length, List.length_replicate]
    omega

/-- C1 amended: pass 1 records, for each location in render order, exactly
the page its detail title is drawn on; pass 2 writes the index entries in
location order carrying those recorded (hence actual) starting pages, but
only as many entries as fit on the pre-allocated index pages: every
location gets at most one entry, and with single-line summaries every
location gets exactly one entry only when there are at most 30 locations
(a pre-allocated page holds 30 entries of 21 points, not the estimated
35). -/
theorem projectIndex_twoPass_spec :
    (∀ (extras : List ℕ) (pages : ℕ), ∀ pr ∈ pass1Records pages extras, pr.1 = pr.2) ∧
    (∀ (ipc : ℕ) (counts : List ℕ), placedEntries ipc counts ≤ counts.length) ∧
    (∀ (extras counts : List ℕ),
      indexEntryPages extras counts =
        ((pass1Records (1 + indexPageCount extras.length) extras).map Prod.snd).take
          (placedEntries (indexPageCount extras.length) counts)) ∧
    (∀ counts : List ℕ, (∀ c ∈ counts, c = 1) → counts.length ≤ 30 →
      placedEntries (indexPageCount counts.length) counts = counts.length) := by
  refine ⟨pass1Records_fst_eq_snd, placedEntries_le, ?_, ?_⟩
  · intro extras counts
    rw [indexEntryPages]
    congr 1
    exact List.map_congr_left
      (fun pr hpr => pass1Records_fst_eq_snd extras _ pr hpr)
  · intro counts hones hlen
    have hipc : indexPageCount counts.length = 1 :=
      indexPageCount_eq_one (le_trans hlen (by norm_num))
    have h := fillPage_ones counts hones 0 (by norm_num)
    rw [show (132 + 21 * ((0 : ℕ) : ℚ)) = 76 + 56 by norm_num] at h
    rw [hipc, placedEntries, h, placedEntries]
    omega

/-- Witness for C1 (amended): with five single-line locations all five
index entries are written. -/
theorem projectIndex_twoPass_spec_witness :
    placedEntries (indexPageCount (List.replicate 5 1 : List ℕ).length)
      (List.replicate 5 1) = (List.replicate 5 1 : List ℕ).length :=
  projectIndex_twoPass_spec.2.2.2 (List.replicate 5 1)
    (fun c hc => List.eq_of_mem_replicate hc)
    (by rw [List.length_replicate]; norm_num)

end SoundScouting
